import Mathlib

/-!
# Mini Image Gallery: verification of the upload/store/delete contract

Shallow embedding of `src/backend/src/index.js` (Express server: upload
validation, in-memory image store, list and delete handlers) and of
`src/frontend/src/App.jsx` (client upload/delete controllers and the
transient-notification helper), with theorems checking the specified
behaviour.

Modelling conventions:
* JS strings are Lean `String`s; binary buffers are `List Nat` with each
  entry `< 256`.
* `crypto.randomUUID()` is modelled as drawing from a fresh-id supply: the
  server state carries a counter `nextId` and each upload consumes it, so
  ids are fresh by construction (matching the "freshly generated unique id"
  role the UUID plays in the code).
* `new Date().toISOString()` is modelled as a logical clock `now : Nat`
  that advances on each successful upload, so `uploadedAt` records the
  insertion instant ("uploaded after" = larger `uploadedAt`).
* `setTimeout`/`clearTimeout` are modelled by an optional pending timer
  `(id, delay)` in the client state plus a `timerFires` transition that is
  a no-op on a cancelled (replaced) timer id, matching JS timer semantics.
-/

namespace Gallery

/-! ## Server constants (src/backend/src/index.js lines 9-10) -/

/-- `MAX_FILE_SIZE_BYTES = 3 * 1024 * 1024` (3 MB). -/
def MAX_FILE_SIZE_BYTES : Nat := 3 * 1024 * 1024

/-- `ALLOWED_MIME_TYPES = ['image/jpeg', 'image/png']`. -/
def ALLOWED_MIME_TYPES : List String := ["image/jpeg", "image/png"]

/-! ## Base64 (Node `buffer.toString('base64')` on storage; standard
base64 decoding on read-back) -/

/-- The RFC 4648 base64 alphabet, indexed by sextet value. -/
def b64Alphabet : List Char :=
  ['A','B','C','D','E','F','G','H','I','J','K','L','M','N','O','P',
   'Q','R','S','T','U','V','W','X','Y','Z',
   'a','b','c','d','e','f','g','h','i','j','k','l','m','n','o','p',
   'q','r','s','t','u','v','w','x','y','z',
   '0','1','2','3','4','5','6','7','8','9','+','/']

/-- Character for a sextet value. -/
def b64Char (n : Nat) : Char := b64Alphabet.getD n 'A'

/-- Sextet value of an alphabet character. -/
def b64Val (c : Char) : Nat := b64Alphabet.indexOf c

/-- Base64 encoding of a byte list, as `buffer.toString('base64')`
produces it: three bytes per four characters, `=`-padded tail. -/
def b64EncodeChars : List Nat → List Char
  | a :: b :: c :: rest =>
      b64Char (a / 4) :: b64Char (a % 4 * 16 + b / 16) ::
      b64Char (b % 16 * 4 + c / 64) :: b64Char (c % 64) ::
      b64EncodeChars rest
  | [a, b] =>
      [b64Char (a / 4), b64Char (a % 4 * 16 + b / 16), b64Char (b % 16 * 4), '=']
  | [a] =>
      [b64Char (a / 4), b64Char (a % 4 * 16), '=', '=']
  | [] => []

/-- Modelled from the spec: "a record whose decoded base64 `data`
byte-for-byte equals the original uploaded bytes".  The decoder itself
lives in the browser (data-URL rendering), not in this repository, so it
is the standard RFC 4648 base64 decoder: four characters per three bytes,
`=`-padding terminates the input. -/
def b64DecodeChars : List Char → Option (List Nat)
  | w :: x :: y :: z :: rest =>
      if z = '=' then
        if y = '=' then
          if rest = [] then some [b64Val w * 4 + b64Val x / 16] else none
        else
          if rest = [] then
            some [b64Val w * 4 + b64Val x / 16,
                  b64Val x % 16 * 16 + b64Val y / 4]
          else none
      else
        (b64DecodeChars rest).map fun tail =>
          (b64Val w * 4 + b64Val x / 16) ::
          (b64Val x % 16 * 16 + b64Val y / 4) ::
          (b64Val y % 4 * 64 + b64Val z) :: tail
  | [] => some []
  | _ => none

/-- The base64 string stored in a record's `data` field. -/
def b64Encode (bytes : List Nat) : String := ⟨b64EncodeChars bytes⟩

/-- Decoding a record's `data` field back to bytes. -/
def b64Decode (s : String) : Option (List Nat) := b64DecodeChars s.data

theorem b64Val_b64Char_all : ∀ n < 64, b64Val (b64Char n) = n := by decide

theorem b64Char_ne_eq_all : ∀ n < 64, b64Char n ≠ '=' := by decide

theorem b64Val_b64Char {n : Nat} (h : n < 64) : b64Val (b64Char n) = n :=
  b64Val_b64Char_all n h

theorem b64Char_ne_eq {n : Nat} (h : n < 64) : b64Char n ≠ '=' :=
  b64Char_ne_eq_all n h

theorem b64_roundtrip (bytes : List Nat) (h : ∀ b ∈ bytes, b < 256) :
    b64DecodeChars (b64EncodeChars bytes) = some bytes := by
  induction bytes using b64EncodeChars.induct with
  | case1 a b c rest ih =>
      have ha : a < 256 := h a (by simp)
      have hb : b < 256 := h b (by simp)
      have hc : c < 256 := h c (by simp)
      have h4 : a / 4 < 64 := by omega
      have h5 : a % 4 * 16 + b / 16 < 64 := by omega
      have h6 : b % 16 * 4 + c / 64 < 64 := by omega
      have h7 : c % 64 < 64 := by omega
      rw [b64EncodeChars, b64DecodeChars]
      rw [if_neg (b64Char_ne_eq h7)]
      rw [ih (by intro x hx; exact h x (by simp [hx]))]
      simp only [Option.map_some']
      rw [b64Val_b64Char h4, b64Val_b64Char h5, b64Val_b64Char h6,
          b64Val_b64Char h7]
      have e1 : a / 4 * 4 + (a % 4 * 16 + b / 16) / 16 = a := by omega
      have e2 : (a % 4 * 16 + b / 16) % 16 * 16 + (b % 16 * 4 + c / 64) / 4 = b := by
        omega
      have e3 : (b % 16 * 4 + c / 64) % 4 * 64 + c % 64 = c := by omega
      rw [e1, e2, e3]
  | case2 a b =>
      have ha : a < 256 := h a (by simp)
      have hb : b < 256 := h b (by simp)
      have h4 : a / 4 < 64 := by omega
      have h5 : a % 4 * 16 + b / 16 < 64 := by omega
      have h6 : b % 16 * 4 < 64 := by omega
      rw [b64EncodeChars, b64DecodeChars]
      rw [if_pos rfl, if_neg (b64Char_ne_eq h6), if_pos rfl]
      rw [b64Val_b64Char h4, b64Val_b64Char h5, b64Val_b64Char h6]
      have e1 : a / 4 * 4 + (a % 4 * 16 + b / 16) / 16 = a := by omega
      have e2 : (a % 4 * 16 + b / 16) % 16 * 16 + b % 16 * 4 / 4 = b := by omega
      rw [e1, e2]
  | case3 a =>
      have ha : a < 256 := h a (by simp)
      have h4 : a / 4 < 64 := by omega
      have h5 : a % 4 * 16 < 64 := by omega
      rw [b64EncodeChars, b64DecodeChars]
      rw [if_pos rfl, if_pos rfl, if_pos rfl]
      rw [b64Val_b64Char h4, b64Val_b64Char h5]
      have e1 : a / 4 * 4 + a % 4 * 16 / 16 = a := by omega
      rw [e1]
  | case4 => rfl

/-! ## Server data model -/

/-- A stored image (src/backend/src/index.js lines 24-27 and 63-70):
`id, filename, mimetype, size, uploadedAt, data (base64 string)`.
`id` is the fresh-id-supply model of `crypto.randomUUID()`; `uploadedAt`
is the logical-clock model of `new Date().toISOString()`. -/
structure ImageRecord where
  id : Nat
  filename : String
  mimetype : String
  size : Nat
  uploadedAt : Nat
  data : String
  deriving DecidableEq, Repr

/-- The single file carried by a multipart upload request in the `image`
field, as multer hands it to the handler: original name, declared MIME
type, and the buffered content (`size` is the buffer's byte length). -/
structure FilePart where
  originalname : String
  mimetype : String
  bytes : List Nat
  deriving DecidableEq, Repr

/-- Server state: the in-memory `images` array plus the fresh-id supply
and the logical clock backing `crypto.randomUUID()` and `new Date()`. -/
structure ServerState where
  images : List ImageRecord
  nextId : Nat
  now : Nat
  deriving DecidableEq, Repr

/-- The state at process start: `const images = []`. -/
def initState : ServerState := ⟨[], 0, 0⟩

/-- Response of `POST /upload`: 400 with a `{message}` body (multer
`fileFilter` rejection, `LIMIT_FILE_SIZE`, or the handler's missing-file
branch) or 201 with the created record. -/
inductive UploadResponse where
  | badRequest (message : String)
  | created (record : ImageRecord)
  deriving DecidableEq, Repr

/-- HTTP status of an upload response. -/
def UploadResponse.status : UploadResponse → Nat
  | .badRequest _ => 400
  | .created _ => 201

/-- Response of `DELETE /images/:id`: 404 `{message:'Image not found'}`
or 200 `{id}` of the removed record. -/
inductive DeleteResponse where
  | notFound (message : String)
  | okDeleted (id : Nat)
  deriving DecidableEq, Repr

/-- HTTP status of a delete response. -/
def DeleteResponse.status : DeleteResponse → Nat
  | .notFound _ => 404
  | .okDeleted _ => 200

/-- The `imageRecord` object literal the upload handler builds
(src/backend/src/index.js lines 63-70). -/
def mkRecord (f : FilePart) (st : ServerState) : ImageRecord :=
  { id := st.nextId
    filename := f.originalname
    mimetype := f.mimetype
    size := f.bytes.length
    uploadedAt := st.now
    data := b64Encode f.bytes }

/-- `POST /upload` (src/backend/src/index.js lines 12-22 and 50-76).
The request either carries no file for the `image` field (`none`) or one
file. Multer's `fileFilter` rejects a MIME type outside
`ALLOWED_MIME_TYPES`; its `limits.fileSize` rejects a body larger than
`MAX_FILE_SIZE_BYTES` (`LIMIT_FILE_SIZE`); both surface as 400 through
the error middleware (lines 90-103). The handler then 400s on a missing
file, or builds `imageRecord` and `images.unshift`es it. -/
def processUpload (req : Option FilePart) (st : ServerState) :
    UploadResponse × ServerState :=
  match req with
  | none => (.badRequest "Please attach a JPEG or PNG image ≤ 3 MB.", st)
  | some f =>
    if f.mimetype ∈ ALLOWED_MIME_TYPES then
      if f.bytes.length ≤ MAX_FILE_SIZE_BYTES then
        (.created (mkRecord f st),
         { images := mkRecord f st :: st.images,
           nextId := st.nextId + 1, now := st.now + 1 })
      else (.badRequest "File exceeds 3 MB limit.", st)
    else (.badRequest "Only JPEG and PNG images are allowed", st)

/-- `images.findIndex((img) => img.id === id)` followed by
`images.splice(index, 1)`: locate the first record with the id and
remove it, returning it with the remaining list. -/
def removeFirstById (id : Nat) : List ImageRecord →
    Option (ImageRecord × List ImageRecord)
  | [] => none
  | r :: rest =>
    if r.id = id then some (r, rest)
    else (removeFirstById id rest).map fun p => (p.1, r :: p.2)

/-- `DELETE /images/:id` (src/backend/src/index.js lines 78-88). -/
def deleteImage (id : Nat) (st : ServerState) : DeleteResponse × ServerState :=
  match removeFirstById id st.images with
  | none => (.notFound "Image not found", st)
  | some (r, rest) => (.okDeleted r.id, { st with images := rest })

/-- `GET /images` (src/backend/src/index.js lines 47-49): respond with
the whole `images` array; the handler does not mutate the store (the
response body is the JSON serialization, a by-value snapshot). -/
def listImages (st : ServerState) : List ImageRecord × ServerState :=
  (st.images, st)

/-- Apply a sequence of upload requests in order. -/
def uploadAll (fs : List FilePart) (st : ServerState) : ServerState :=
  fs.foldl (fun s f => (processUpload (some f) s).2) st

/-- States the server can reach from process start by any sequence of
upload and delete requests. -/
inductive Reachable : ServerState → Prop where
  | init : Reachable initState
  | upload (req : Option FilePart) {st : ServerState} :
      Reachable st → Reachable (processUpload req st).2
  | delete (id : Nat) {st : ServerState} :
      Reachable st → Reachable (deleteImage id st).2

/-- A file that passes the server-side validation. -/
def validFile (f : FilePart) : Prop :=
  f.mimetype ∈ ALLOWED_MIME_TYPES ∧ f.bytes.length ≤ MAX_FILE_SIZE_BYTES

/-- The store invariant: every record satisfies the MIME and size
constraints, ids are pairwise distinct and below the id supply, and
`uploadedAt` stamps strictly decrease from the head (newest first) and
stay below the clock. -/
def StoreInv (st : ServerState) : Prop :=
  (∀ r ∈ st.images, r.mimetype ∈ ALLOWED_MIME_TYPES ∧ r.size ≤ MAX_FILE_SIZE_BYTES) ∧
  st.images.Pairwise (fun a b => a.id ≠ b.id) ∧
  st.images.Pairwise (fun a b => b.uploadedAt < a.uploadedAt) ∧
  (∀ r ∈ st.images, r.id < st.nextId ∧ r.uploadedAt < st.now)

/-! ## Store invariant lemmas -/

theorem processUpload_valid (f : FilePart) (st : ServerState)
    (h1 : f.mimetype ∈ ALLOWED_MIME_TYPES)
    (h2 : f.bytes.length ≤ MAX_FILE_SIZE_BYTES) :
    processUpload (some f) st =
      (.created (mkRecord f st),
       { images := mkRecord f st :: st.images,
         nextId := st.nextId + 1, now := st.now + 1 }) := by
  simp [processUpload, h1, h2]

theorem storeInv_init : StoreInv initState := by
  refine ⟨?_, ?_, ?_, ?_⟩ <;> simp [initState]

theorem storeInv_upload (req : Option FilePart) {st : ServerState}
    (h : StoreInv st) : StoreInv (processUpload req st).2 := by
  obtain ⟨hvalid, hids, htimes, hbound⟩ := h
  match req with
  | none => exact ⟨hvalid, hids, htimes, hbound⟩
  | some f =>
    by_cases h1 : f.mimetype ∈ ALLOWED_MIME_TYPES
    · by_cases h2 : f.bytes.length ≤ MAX_FILE_SIZE_BYTES
      · rw [processUpload_valid f st h1 h2]
        refine ⟨?_, ?_, ?_, ?_⟩
        · intro r hr
          rcases List.mem_cons.mp hr with rfl | hr
          · exact ⟨h1, h2⟩
          · exact hvalid r hr
        · refine List.pairwise_cons.mpr ⟨?_, hids⟩
          intro b hb
          have := (hbound b hb).1
          simp only [mkRecord]
          omega
        · refine List.pairwise_cons.mpr ⟨?_, htimes⟩
          intro b hb
          have := (hbound b hb).2
          simpa [mkRecord] using this
        · intro r hr
          rcases List.mem_cons.mp hr with rfl | hr
          · simp [mkRecord]
          · have := hbound r hr
            constructor <;> [exact Nat.lt_succ_of_lt this.1;
                            exact Nat.lt_succ_of_lt this.2]
      · simp only [processUpload, if_pos h1, if_neg h2]
        exact ⟨hvalid, hids, htimes, hbound⟩
    · simp only [processUpload, if_neg h1]
      exact ⟨hvalid, hids, htimes, hbound⟩

theorem removeFirstById_none {id : Nat} {l : List ImageRecord} :
    removeFirstById id l = none ↔ ∀ r ∈ l, r.id ≠ id := by
  induction l with
  | nil => simp [removeFirstById]
  | cons a tail ih =>
    by_cases ha : a.id = id
    · simp [removeFirstById, ha]
    · simp only [removeFirstById, if_neg ha, Option.map_eq_none']
      simp [ih, ha]

theorem removeFirstById_some {id : Nat} {l : List ImageRecord}
    {r : ImageRecord} {rest : List ImageRecord}
    (h : removeFirstById id l = some (r, rest)) :
    ∃ l₁ l₂, l = l₁ ++ r :: l₂ ∧ rest = l₁ ++ l₂ ∧ r.id = id := by
  induction l generalizing rest with
  | nil => simp [removeFirstById] at h
  | cons a tail ih =>
    by_cases ha : a.id = id
    · rw [removeFirstById, if_pos ha] at h
      simp only [Option.some.injEq, Prod.mk.injEq] at h
      obtain ⟨rfl, rfl⟩ := h
      exact ⟨[], tail, by simp, by simp, ha⟩
    · rw [removeFirstById, if_neg ha] at h
      rcases hrem : removeFirstById id tail with _ | ⟨r', rest'⟩
      · rw [hrem] at h; simp at h
      · rw [hrem] at h
        simp only [Option.map_some', Option.some.injEq, Prod.mk.injEq] at h
        obtain ⟨rfl, hrest⟩ := h
        obtain ⟨l₁, l₂, hl, hl', hid⟩ := ih hrem
        exact ⟨a :: l₁, l₂, by simp [hl], by simp [← hrest, hl'], hid⟩

theorem removeFirstById_rest_sublist {id : Nat} {l : List ImageRecord}
    {r : ImageRecord} {rest : List ImageRecord}
    (h : removeFirstById id l = some (r, rest)) : List.Sublist rest l := by
  obtain ⟨l₁, l₂, hl, hrest, _⟩ := removeFirstById_some h
  rw [hl, hrest]
  exact (List.sublist_cons_self r l₂).append_left l₁

theorem storeInv_delete (id : Nat) {st : ServerState}
    (h : StoreInv st) : StoreInv (deleteImage id st).2 := by
  obtain ⟨hvalid, hids, htimes, hbound⟩ := h
  rcases hrem : removeFirstById id st.images with _ | ⟨r, rest⟩
  · simp only [deleteImage, hrem]
    exact ⟨hvalid, hids, htimes, hbound⟩
  · have hsub : List.Sublist rest st.images := removeFirstById_rest_sublist hrem
    simp only [deleteImage, hrem]
    exact ⟨fun r' hr' => hvalid r' (hsub.mem hr'),
           hids.sublist hsub, htimes.sublist hsub,
           fun r' hr' => hbound r' (hsub.mem hr')⟩

theorem storeInv_reachable {st : ServerState} (h : Reachable st) :
    StoreInv st := by
  induction h with
  | init => exact storeInv_init
  | upload req _ ih => exact storeInv_upload req ih
  | delete id _ ih => exact storeInv_delete id ih

/-! ## Client model (src/frontend/src/App.jsx) -/

/-- `MAX_FILE_SIZE = 3 * 1024 * 1024` (App.jsx line 16). -/
def MAX_FILE_SIZE : Nat := 3 * 1024 * 1024

/-- `SUPPORTED_TYPES = ['image/jpeg', 'image/png']` (App.jsx line 17). -/
def SUPPORTED_TYPES : List String := ["image/jpeg", "image/png"]

/-- A file selected in the file input: `file.name`, `file.type`,
`file.size` (byte count). -/
structure ClientFile where
  name : String
  type : String
  size : Nat
  deriving DecidableEq, Repr

/-- Client component state: the `images`, `error`, `success`,
`isUploading`, `uploadProgress` pieces of React state, plus
`messageTimerRef` modelled as an optional pending `(timer id, delay)`
pair (`none` = no pending auto-clear). -/
structure ClientState where
  images : List ImageRecord
  error : String
  success : String
  timer : Option (Nat × Nat)
  isUploading : Bool
  uploadProgress : Nat
  deriving DecidableEq, Repr

/-- Client state on mount (before the initial fetch). -/
def initClient : ClientState := ⟨[], "", "", none, false, 0⟩

/-- `showTemporaryMessage(type, msg, ms = 3000)` (App.jsx lines 41-58):
cancel any pending auto-clear timer, clear both messages, set the one
selected by `type`, and schedule a fresh auto-clear after `ms`.  `tid` is
the id `setTimeout` returns for the new timer. -/
def showTemporaryMessage (type : String) (msg : String) (ms : Nat)
    (tid : Nat) (st : ClientState) : ClientState :=
  { st with
    error := if type = "success" then "" else msg
    success := if type = "success" then msg else ""
    timer := some (tid, ms) }

/-- The auto-clear callback firing for timer id `tid`: it only runs if
that timer is still the pending one (`clearTimeout` on a replaced timer
means a stale id never fires), and then clears both messages and the
timer ref. -/
def timerFires (tid : Nat) (st : ClientState) : ClientState :=
  match st.timer with
  | some (i, _) =>
      if i = tid then { st with error := "", success := "", timer := none }
      else st
  | none => st

/-- `validateFile(file)` (App.jsx lines 93-107): returns whether the
selection passes, setting the error message on the failing branch. -/
def validateFile : Option ClientFile → ClientState → Bool × ClientState
  | none, st => (false, { st with error := "Please pick an image to upload." })
  | some f, st =>
    if f.type ∈ SUPPORTED_TYPES then
      if f.size > MAX_FILE_SIZE then
        (false, { st with error := "Image must be 3 MB or smaller." })
      else (true, st)
    else (false, { st with error := "Only JPEG and PNG files are supported." })

/-- Resolution of the `uploadImage` promise (App.jsx lines 128-180):
fulfilled with the parsed record on HTTP 2xx, rejected with a message on
server rejection, parse failure, network error, or abort. -/
inductive UploadOutcome where
  | ok (record : ImageRecord)
  | failed (message : String)
  deriving DecidableEq, Repr

/-- Result of a `handleFileChange` run: the final state, whether an
upload request was issued, and whether the file input was reset
(`event.target.value = ''`). -/
structure ChangeResult where
  state : ClientState
  networkCall : Bool
  inputReset : Bool
  deriving DecidableEq, Repr

/-- `handleFileChange(event)` (App.jsx lines 109-127): validate; on
failure reset the input and return with no request; on success clear
both messages, run `uploadImage` (which sets `isUploading`), then either
prepend the returned record and show the success notification or show
the error notification; finally clear `isUploading`, reset progress and
the input. -/
def handleFileChange (file : Option ClientFile) (outcome : UploadOutcome)
    (tid : Nat) (st : ClientState) : ChangeResult :=
  match validateFile file st with
  | (false, st1) => ⟨st1, false, true⟩
  | (true, st1) =>
    let st2 := { st1 with error := "", success := "", isUploading := true }
    match outcome with
    | .ok record =>
      let st3 := { st2 with images := record :: st2.images }
      let st4 := showTemporaryMessage "success"
        ("Uploaded " ++ record.filename) 3000 tid st3
      ⟨{ st4 with isUploading := false, uploadProgress := 0 }, true, true⟩
    | .failed msg =>
      let st4 := showTemporaryMessage "error" msg 3000 tid st2
      ⟨{ st4 with isUploading := false, uploadProgress := 0 }, true, true⟩

/-- Outcome of the delete request as `handleDelete` observes it:
`response.ok`, or a failure (non-ok response throws
`Unable to delete image.`; a network error rejects with its own
message). -/
inductive DeleteOutcome where
  | ok
  | failed (message : String)
  deriving DecidableEq, Repr

/-- `handleDelete(id)` (App.jsx lines 184-199): clear both messages,
issue the DELETE request; on success filter the record out of local
state and show the success notification; on failure show the error
notification and leave `images` untouched. -/
def handleDelete (id : Nat) (outcome : DeleteOutcome) (tid : Nat)
    (st : ClientState) : ClientState :=
  let st1 := { st with error := "", success := "" }
  match outcome with
  | .ok =>
    showTemporaryMessage "success" "Image deleted." 3000 tid
      { st1 with images := st1.images.filter fun image => image.id != id }
  | .failed msg => showTemporaryMessage "error" msg 3000 tid st1

/-! ## Sample data for concrete witnesses -/

/-- A small valid PNG upload (first bytes of the PNG signature). -/
def pngFile : FilePart := ⟨"a.png", "image/png", [137, 80, 78, 71]⟩

/-- A text upload with a disallowed MIME type. -/
def txtFile : FilePart := ⟨"a.txt", "text/plain", [104, 105]⟩

/-- The record the first `pngFile` upload creates from the initial state. -/
def demoRec0 : ImageRecord := mkRecord pngFile initState

/-- Server state after two `pngFile` uploads from process start. -/
def demoState2 : ServerState := uploadAll [pngFile, pngFile] initState

/-- A valid client-side file selection. -/
def goodPngClient : ClientFile := ⟨"a.png", "image/png", 1024⟩

/-- A client-side selection with a disallowed type. -/
def badTxtClient : ClientFile := ⟨"a.txt", "text/plain", 10⟩

/-- A record as the client receives it from a successful upload. -/
def demoUploaded : ImageRecord := ⟨0, "a.png", "image/png", 1024, 0, ""⟩

/-! ## Claims -/

/-- Claim C1: `POST /upload` responds 400 with a message body and leaves
the store unchanged if and only if the request carries no file for the
expected field, the declared MIME type is not exactly `image/jpeg` or
`image/png`, or the byte size exceeds 3,145,728 bytes; a single file at
or under the limit with an allowed MIME type is never rejected (it gets
201). -/
theorem upload_rejects_iff (req : Option FilePart) (st : ServerState) :
    (((processUpload req st).1.status = 400 ∧ (processUpload req st).2 = st) ↔
      (req = none ∨ ∃ f, req = some f ∧
        (f.mimetype ∉ ALLOWED_MIME_TYPES ∨
         f.bytes.length > MAX_FILE_SIZE_BYTES))) ∧
    ((processUpload req st).1.status = 400 →
      ∃ msg, (processUpload req st).1 = .badRequest msg) ∧
    (∀ f, req = some f → validFile f →
      (processUpload req st).1.status = 201) := by
  rcases req with _ | f
  · refine ⟨?_, ?_, ?_⟩
    · constructor
      · intro _
        exact Or.inl rfl
      · intro _
        exact ⟨rfl, rfl⟩
    · intro _
      exact ⟨"Please attach a JPEG or PNG image ≤ 3 MB.", rfl⟩
    · intro f hf
      exact absurd hf (by simp)
  · by_cases h1 : f.mimetype ∈ ALLOWED_MIME_TYPES
    · by_cases h2 : f.bytes.length ≤ MAX_FILE_SIZE_BYTES
      · have hre := processUpload_valid f st h1 h2
        refine ⟨?_, ?_, ?_⟩
        · constructor
          · intro h
            rw [hre] at h
            exact absurd h.1 (by simp [UploadResponse.status])
          · rintro (h | ⟨f', hf', hbad⟩)
            · exact absurd h (by simp)
            · obtain rfl := Option.some.inj hf'
              rcases hbad with hbad | hbad
              · exact absurd h1 hbad
              · omega
        · intro h
          rw [hre] at h
          simp [UploadResponse.status] at h
        · intro f' hf' _
          rw [hre]
          rfl
      · have hre : processUpload (some f) st =
            (.badRequest "File exceeds 3 MB limit.", st) := by
          simp [processUpload, h1, h2]
        refine ⟨?_, ?_, ?_⟩
        · constructor
          · intro _
            exact Or.inr ⟨f, rfl, Or.inr (by omega)⟩
          · intro _
            rw [hre]
            exact ⟨rfl, rfl⟩
        · intro _
          exact ⟨"File exceeds 3 MB limit.", by rw [hre]⟩
        · intro f' hf' hvf
          obtain rfl := Option.some.inj hf'
          exact absurd hvf.2 h2
    · have hre : processUpload (some f) st =
          (.badRequest "Only JPEG and PNG images are allowed", st) := by
        simp [processUpload, h1]
      refine ⟨?_, ?_, ?_⟩
      · constructor
        · intro _
          exact Or.inr ⟨f, rfl, Or.inl h1⟩
        · intro _
          rw [hre]
          exact ⟨rfl, rfl⟩
      · intro _
        exact ⟨"Only JPEG and PNG images are allowed", by rw [hre]⟩
      · intro f' hf' hvf
        obtain rfl := Option.some.inj hf'
        exact absurd hvf.1 h1

/-- Claim C2: a validated upload responds 201 with a new record whose
`size` is the uploaded byte length, whose `mimetype` is the declared
(allowed) type, whose `filename` is the client-supplied name as-is, with
a fresh id and the server clock as timestamp, and the record is
prepended to the store. -/
theorem upload_success_record (f : FilePart) (st : ServerState)
    (h1 : f.mimetype ∈ ALLOWED_MIME_TYPES)
    (h2 : f.bytes.length ≤ MAX_FILE_SIZE_BYTES) :
    ∃ r, processUpload (some f) st =
        (.created r,
         { images := r :: st.images, nextId := st.nextId + 1, now := st.now + 1 }) ∧
      (UploadResponse.created r).status = 201 ∧
      r.size = f.bytes.length ∧
      r.mimetype = f.mimetype ∧
      r.mimetype ∈ ALLOWED_MIME_TYPES ∧
      r.filename = f.originalname ∧
      r.uploadedAt = st.now ∧
      r.id = st.nextId ∧
      ((∀ p ∈ st.images, p.id < st.nextId) → ∀ p ∈ st.images, p.id ≠ r.id) := by
  refine ⟨mkRecord f st, processUpload_valid f st h1 h2, rfl, rfl, rfl, h1, rfl, rfl, rfl, ?_⟩
  intro hb p hp
  have := hb p hp
  simp only [mkRecord]
  omega

/-- Witness for C1 at concrete requests: a valid PNG gets 201, and the
iff classifies a missing file as a 400 that leaves the store unchanged. -/
theorem upload_rejects_iff_witness :
    (processUpload (some pngFile) initState).1.status = 201 ∧
    ((processUpload none initState).1.status = 400 ∧
      (processUpload none initState).2 = initState) :=
  ⟨(upload_rejects_iff (some pngFile) initState).2.2 pngFile rfl
      ⟨by decide, by decide⟩,
   ((upload_rejects_iff none initState).1).mpr (Or.inl rfl)⟩

/-- Witness for C2: the concrete PNG upload from the initial state. -/
theorem upload_success_record_witness :
    ∃ r, processUpload (some pngFile) initState =
        (.created r,
         { images := r :: initState.images, nextId := initState.nextId + 1,
           now := initState.now + 1 }) ∧
      (UploadResponse.created r).status = 201 ∧
      r.size = pngFile.bytes.length ∧
      r.mimetype = pngFile.mimetype ∧
      r.mimetype ∈ ALLOWED_MIME_TYPES ∧
      r.filename = pngFile.originalname ∧
      r.uploadedAt = initState.now ∧
      r.id = initState.nextId ∧
      ((∀ p ∈ initState.images, p.id < initState.nextId) →
        ∀ p ∈ initState.images, p.id ≠ r.id) :=
  upload_success_record pngFile initState (by decide) (by decide)

theorem uploadAll_reachable (fs : List FilePart) {st : ServerState}
    (h : Reachable st) : Reachable (uploadAll fs st) := by
  induction fs generalizing st with
  | nil => exact h
  | cons f fs ih => exact ih (Reachable.upload (some f) h)

theorem uploadAll_length (fs : List FilePart) (st : ServerState)
    (h : ∀ f ∈ fs, validFile f) :
    (uploadAll fs st).images.length = fs.length + st.images.length := by
  induction fs generalizing st with
  | nil => simp [uploadAll]
  | cons f fs ih =>
    have hf := h f (by simp)
    have hstep : (processUpload (some f) st).2.images = mkRecord f st :: st.images := by
      rw [processUpload_valid f st hf.1 hf.2]
    have : uploadAll (f :: fs) st = uploadAll fs (processUpload (some f) st).2 := rfl
    rw [this, ih (processUpload (some f) st).2 (fun g hg => h g (by simp [hg])), hstep]
    simp
    omega

/-- Claim C3: in every reachable store state every record satisfies the
MIME and size constraints, ids are pairwise distinct, and the list is
ordered by insertion with the newest record at the head (`uploadedAt`
strictly decreases down the list); and after N successful uploads with
no deletes, `list()` returns exactly N records ordered newest-first. -/
theorem store_invariants :
    (∀ st, Reachable st →
      (∀ r ∈ st.images,
        r.mimetype ∈ ALLOWED_MIME_TYPES ∧ r.size ≤ MAX_FILE_SIZE_BYTES) ∧
      st.images.Pairwise (fun a b => a.id ≠ b.id) ∧
      st.images.Pairwise (fun a b => b.uploadedAt < a.uploadedAt)) ∧
    (∀ fs : List FilePart, (∀ f ∈ fs, validFile f) →
      (listImages (uploadAll fs initState)).1.length = fs.length ∧
      (listImages (uploadAll fs initState)).1.Pairwise
        (fun a b => b.uploadedAt < a.uploadedAt)) := by
  constructor
  · intro st h
    obtain ⟨hvalid, hids, htimes, _⟩ := storeInv_reachable h
    exact ⟨hvalid, hids, htimes⟩
  · intro fs h
    constructor
    · have := uploadAll_length fs initState h
      simpa [listImages, initState] using this
    · obtain ⟨_, _, htimes, _⟩ :=
        storeInv_reachable (uploadAll_reachable fs Reachable.init)
      exact htimes

/-- Witness for C3: the two-upload state is reachable and the N-upload
clause holds for a concrete two-element batch. -/
theorem store_invariants_witness :
    demoState2.images.Pairwise (fun a b => a.id ≠ b.id) ∧
    (listImages demoState2).1.length = 2 := by
  constructor
  · exact ((store_invariants.1 demoState2
      (uploadAll_reachable [pngFile, pngFile] Reachable.init)).2).1
  · refine (store_invariants.2 [pngFile, pngFile] ?_).1
    intro f hf
    simp only [List.mem_cons, List.not_mem_nil, or_false] at hf
    rcases hf with rfl | rfl <;> exact ⟨by decide, by decide⟩

theorem removeFirstById_mem {id : Nat} {l : List ImageRecord} {r : ImageRecord}
    (hp : l.Pairwise (fun a b => a.id ≠ b.id)) (hm : r ∈ l) (hid : r.id = id) :
    ∃ l₁ l₂, l = l₁ ++ r :: l₂ ∧ removeFirstById id l = some (r, l₁ ++ l₂) := by
  induction l with
  | nil => simp at hm
  | cons a tail ih =>
    obtain ⟨hhead, htail⟩ := List.pairwise_cons.mp hp
    rcases List.mem_cons.mp hm with rfl | hm'
    · exact ⟨[], tail, by simp, by rw [removeFirstById, if_pos hid]; rfl⟩
    · have hane : ¬ a.id = id := by
        rw [← hid]
        exact hhead r hm'
      obtain ⟨l₁, l₂, hsplit, hrem⟩ := ih htail hm'
      refine ⟨a :: l₁, l₂, by simp [hsplit], ?_⟩
      rw [removeFirstById, if_neg hane, hrem]
      rfl

/-- Claim C4: `DELETE /images/:id` responds 404 and leaves the store
unchanged when no record has that id; when a record with that id is
present (ids being pairwise distinct), exactly that record is removed —
the store splits as `l₁ ++ [r] ++ l₂` and becomes `l₁ ++ l₂`, one
shorter, all other records unaltered and in order — and the response is
200 with the removed record's id. -/
theorem delete_spec (id : Nat) (st : ServerState) :
    ((∀ r ∈ st.images, r.id ≠ id) →
      deleteImage id st = (.notFound "Image not found", st) ∧
      (DeleteResponse.notFound "Image not found").status = 404) ∧
    (∀ r ∈ st.images, r.id = id →
      st.images.Pairwise (fun a b => a.id ≠ b.id) →
      ∃ l₁ l₂, st.images = l₁ ++ r :: l₂ ∧
        deleteImage id st = (.okDeleted r.id, { st with images := l₁ ++ l₂ }) ∧
        (l₁ ++ l₂).length + 1 = st.images.length ∧
        (DeleteResponse.okDeleted r.id).status = 200) := by
  constructor
  · intro h
    have hnone : removeFirstById id st.images = none := removeFirstById_none.mpr h
    constructor
    · simp [deleteImage, hnone]
    · rfl
  · intro r hm hid hp
    obtain ⟨l₁, l₂, hsplit, hrem⟩ := removeFirstById_mem hp hm hid
    refine ⟨l₁, l₂, hsplit, ?_, ?_, rfl⟩
    · simp [deleteImage, hrem]
    · rw [hsplit]
      simp
      omega

/-- Witness for C4: deleting id 0 from the concrete two-record store
removes the first upload's record (at the tail) and returns its id;
deleting id 5 is a 404 that leaves the state unchanged. -/
theorem delete_spec_witness :
    (deleteImage 5 demoState2 = (.notFound "Image not found", demoState2) ∧
      (DeleteResponse.notFound "Image not found").status = 404) ∧
    (∃ l₁ l₂, demoState2.images = l₁ ++ demoRec0 :: l₂ ∧
      deleteImage 0 demoState2 =
        (.okDeleted demoRec0.id, { demoState2 with images := l₁ ++ l₂ }) ∧
      (l₁ ++ l₂).length + 1 = demoState2.images.length ∧
      (DeleteResponse.okDeleted demoRec0.id).status = 200) :=
  ⟨(delete_spec 5 demoState2).1 (by decide),
   (delete_spec 0 demoState2).2 demoRec0 (by decide) (by decide) (by decide)⟩

/-- Claim C5: uploading a file and then fetching `/images` yields a
record (at the head of the returned list) whose base64-decoded `data`
equals, byte for byte, the uploaded contents: base64 encoding at
storage followed by decoding is the identity on the stored bytes. -/
theorem upload_roundtrip (f : FilePart) (st : ServerState)
    (h1 : f.mimetype ∈ ALLOWED_MIME_TYPES)
    (h2 : f.bytes.length ≤ MAX_FILE_SIZE_BYTES)
    (hb : ∀ b ∈ f.bytes, b < 256) :
    ∃ r, (processUpload (some f) st).1 = .created r ∧
      (listImages (processUpload (some f) st).2).1.head? = some r ∧
      r ∈ (listImages (processUpload (some f) st).2).1 ∧
      b64Decode r.data = some f.bytes := by
  have hre := processUpload_valid f st h1 h2
  refine ⟨mkRecord f st, by rw [hre], by rw [hre]; rfl, by rw [hre]; simp [listImages], ?_⟩
  show b64Decode (b64Encode f.bytes) = some f.bytes
  show b64DecodeChars (String.data ⟨b64EncodeChars f.bytes⟩) = some f.bytes
  exact b64_roundtrip f.bytes hb

/-- Witness for C5: the concrete PNG-signature upload decodes back to
its own bytes. -/
theorem upload_roundtrip_witness :
    ∃ r, (processUpload (some pngFile) initState).1 = .created r ∧
      (listImages (processUpload (some pngFile) initState).2).1.head? = some r ∧
      r ∈ (listImages (processUpload (some pngFile) initState).2).1 ∧
      b64Decode r.data = some pngFile.bytes :=
  upload_roundtrip pngFile initState (by decide) (by decide) (by decide)

/-- Claim C6: `GET /images` returns the current ordered sequence of all
records, most-recent-first, with no pagination (the full store, length
preserved), and does not mutate the store; the response is a by-value
snapshot of the records (the handler serializes the array), so the
caller cannot reach the store's internals through it. -/
theorem list_images_spec (st : ServerState) (h : Reachable st) :
    (listImages st).1 = st.images ∧
    (listImages st).2 = st ∧
    (listImages st).1.length = st.images.length ∧
    (∀ r ∈ st.images, r ∈ (listImages st).1) ∧
    (listImages st).1.Pairwise (fun a b => b.uploadedAt < a.uploadedAt) := by
  obtain ⟨_, _, htimes, _⟩ := storeInv_reachable h
  exact ⟨rfl, rfl, rfl, fun r hr => hr, htimes⟩

/-- Witness for C6 on the reachable two-upload state. -/
theorem list_images_spec_witness :
    (listImages demoState2).1 = demoState2.images ∧
    (listImages demoState2).2 = demoState2 ∧
    (listImages demoState2).1.length = demoState2.images.length ∧
    (∀ r ∈ demoState2.images, r ∈ (listImages demoState2).1) ∧
    (listImages demoState2).1.Pairwise (fun a b => b.uploadedAt < a.uploadedAt) :=
  list_images_spec demoState2 (uploadAll_reachable [pngFile, pngFile] Reachable.init)

theorem validateFile_none (st : ClientState) :
    validateFile none st =
      (false, { st with error := "Please pick an image to upload." }) := rfl

theorem validateFile_badType {f : ClientFile} (st : ClientState)
    (h : f.type ∉ SUPPORTED_TYPES) :
    validateFile (some f) st =
      (false, { st with error := "Only JPEG and PNG files are supported." }) := by
  simp [validateFile, h]

theorem validateFile_tooBig {f : ClientFile} (st : ClientState)
    (h1 : f.type ∈ SUPPORTED_TYPES) (h2 : f.size > MAX_FILE_SIZE) :
    validateFile (some f) st =
      (false, { st with error := "Image must be 3 MB or smaller." }) := by
  simp [validateFile, h1, h2]

theorem handleFileChange_invalid {file : Option ClientFile}
    {outcome : UploadOutcome} {tid : Nat} {st st1 : ClientState}
    (h : validateFile file st = (false, st1)) :
    handleFileChange file outcome tid st = ⟨st1, false, true⟩ := by
  unfold handleFileChange
  rw [h]

/-- Claim C7: when no file is chosen, the type is not jpeg/png, or the
size exceeds 3,145,728 bytes, the client upload controller rejects
before any network call: it sets one of the three validation error
messages, resets the file input, issues no upload request, and leaves
the local image list (and the success message) untouched. -/
theorem client_validation_rejects (file : Option ClientFile)
    (outcome : UploadOutcome) (tid : Nat) (st : ClientState)
    (hbad : file = none ∨ ∃ f, file = some f ∧
      (f.type ∉ SUPPORTED_TYPES ∨ f.size > MAX_FILE_SIZE)) :
    (handleFileChange file outcome tid st).networkCall = false ∧
    (handleFileChange file outcome tid st).inputReset = true ∧
    ((handleFileChange file outcome tid st).state.error =
        "Please pick an image to upload." ∨
     (handleFileChange file outcome tid st).state.error =
        "Only JPEG and PNG files are supported." ∨
     (handleFileChange file outcome tid st).state.error =
        "Image must be 3 MB or smaller.") ∧
    (handleFileChange file outcome tid st).state.error ≠ "" ∧
    (handleFileChange file outcome tid st).state.images = st.images := by
  rcases hbad with rfl | ⟨f, rfl, hbad⟩
  · rw [handleFileChange_invalid (validateFile_none st)]
    exact ⟨rfl, rfl, Or.inl rfl, by simp, rfl⟩
  · rcases hbad with hbad | hbad
    · rw [handleFileChange_invalid (validateFile_badType st hbad)]
      exact ⟨rfl, rfl, Or.inr (Or.inl rfl), by simp, rfl⟩
    · by_cases h1 : f.type ∈ SUPPORTED_TYPES
      · rw [handleFileChange_invalid (validateFile_tooBig st h1 hbad)]
        exact ⟨rfl, rfl, Or.inr (Or.inr rfl), by simp, rfl⟩
      · rw [handleFileChange_invalid (validateFile_badType st h1)]
        exact ⟨rfl, rfl, Or.inr (Or.inl rfl), by simp, rfl⟩

/-- Witness for C7: selecting the text file issues no request, resets
the input, and sets the type error. -/
theorem client_validation_rejects_witness :
    (handleFileChange (some badTxtClient) (.ok demoUploaded) 0 initClient).networkCall
        = false ∧
    (handleFileChange (some badTxtClient) (.ok demoUploaded) 0 initClient).inputReset
        = true ∧
    ((handleFileChange (some badTxtClient) (.ok demoUploaded) 0 initClient).state.error
        = "Please pick an image to upload." ∨
     (handleFileChange (some badTxtClient) (.ok demoUploaded) 0 initClient).state.error
        = "Only JPEG and PNG files are supported." ∨
     (handleFileChange (some badTxtClient) (.ok demoUploaded) 0 initClient).state.error
        = "Image must be 3 MB or smaller.") ∧
    (handleFileChange (some badTxtClient) (.ok demoUploaded) 0 initClient).state.error
        ≠ "" ∧
    (handleFileChange (some badTxtClient) (.ok demoUploaded) 0 initClient).state.images
        = initClient.images :=
  client_validation_rejects (some badTxtClient) (.ok demoUploaded) 0 initClient
    (Or.inr ⟨badTxtClient, rfl, Or.inl (by decide)⟩)

/-- Claim C8: on a successful delete response the client removes the
record with that id (and only records with that id) from local view
state, preserving the relative order of the rest, and shows a transient
success notification; on any failure the local view state is unchanged
and a transient error notification is shown. -/
theorem client_delete_spec (id tid : Nat) (st : ClientState) (msg : String) :
    ((handleDelete id .ok tid st).images =
        st.images.filter (fun image => image.id != id) ∧
     (∀ r, r ∈ (handleDelete id .ok tid st).images ↔
        r ∈ st.images ∧ r.id ≠ id) ∧
     List.Sublist (handleDelete id .ok tid st).images st.images ∧
     (handleDelete id .ok tid st).success = "Image deleted." ∧
     (handleDelete id .ok tid st).error = "" ∧
     (handleDelete id .ok tid st).timer = some (tid, 3000)) ∧
    ((handleDelete id (.failed msg) tid st).images = st.images ∧
     (handleDelete id (.failed msg) tid st).error = msg ∧
     (handleDelete id (.failed msg) tid st).success = "" ∧
     (handleDelete id (.failed msg) tid st).timer = some (tid, 3000)) := by
  refine ⟨⟨rfl, ?_, ?_, ?_, ?_, rfl⟩, rfl, ?_, ?_, rfl⟩
  · intro r
    show r ∈ st.images.filter (fun image => image.id != id) ↔ _
    simp [List.mem_filter]
  · exact List.filter_sublist st.images
  · show (if ("success" : String) = "success" then "Image deleted." else "") = _
    simp
  · show (if ("success" : String) = "success" then "" else "Image deleted.") = _
    simp
  · show (if ("error" : String) = "success" then "" else msg) = _
    simp
  · show (if ("error" : String) = "success" then msg else "") = _
    simp

/-- Witness for C8 on a concrete one-record client state. -/
theorem client_delete_spec_witness :
    (handleDelete 0 .ok 7 { initClient with images := [demoUploaded] }).images = [] ∧
    (handleDelete 0 (.failed "Unable to delete image.") 7
        { initClient with images := [demoUploaded] }).images = [demoUploaded] :=
  ⟨by
    rw [(client_delete_spec 0 7 { initClient with images := [demoUploaded] }
      "Unable to delete image.").1.1]
    decide,
   (client_delete_spec 0 7 { initClient with images := [demoUploaded] }
      "Unable to delete image.").2.1⟩

theorem validateFile_some (f : ClientFile) (st : ClientState) :
    validateFile (some f) st =
      (if f.type ∈ SUPPORTED_TYPES then
        if f.size > MAX_FILE_SIZE then
          (false, { st with error := "Image must be 3 MB or smaller." })
        else (true, st)
      else
        (false, { st with error := "Only JPEG and PNG files are supported." })) := rfl

theorem validateFile_true {file : Option ClientFile} {st st1 : ClientState}
    (h : validateFile file st = (true, st1)) :
    st1 = st ∧ ∃ f, file = some f ∧
      f.type ∈ SUPPORTED_TYPES ∧ ¬ f.size > MAX_FILE_SIZE := by
  rcases file with _ | f
  · rw [validateFile_none st] at h
    simp at h
  · rw [validateFile_some] at h
    by_cases h1 : f.type ∈ SUPPORTED_TYPES
    · rw [if_pos h1] at h
      by_cases h2 : f.size > MAX_FILE_SIZE
      · rw [if_pos h2] at h
        simp at h
      · rw [if_neg h2] at h
        simp only [Prod.mk.injEq] at h
        exact ⟨h.2.symm, f, rfl, h1, h2⟩
    · rw [if_neg h1] at h
      simp at h

theorem handleFileChange_valid {f : ClientFile} {outcome : UploadOutcome}
    {tid : Nat} {st : ClientState}
    (h1 : f.type ∈ SUPPORTED_TYPES) (h2 : ¬ f.size > MAX_FILE_SIZE) :
    handleFileChange (some f) outcome tid st =
      match outcome with
      | .ok record =>
        ⟨{ images := record :: st.images,
           error := "", success := "Uploaded " ++ record.filename,
           timer := some (tid, 3000), isUploading := false,
           uploadProgress := 0 }, true, true⟩
      | .failed msg =>
        ⟨{ images := st.images,
           error := msg, success := "",
           timer := some (tid, 3000), isUploading := false,
           uploadProgress := 0 }, true, true⟩ := by
  have hval : validateFile (some f) st = (true, st) := by
    rw [validateFile_some, if_pos h1, if_neg h2]
  unfold handleFileChange
  rw [hval]
  cases outcome <;> rfl

/-- Claim C9: every transient notification schedules an auto-clear (the
pending timer carries the delay passed in, which is 3000 ms whenever the
upload or delete controller shows one), firing that timer clears both
messages, and showing a new notification replaces the pending timer so
the previous timer's id no longer fires (its callback is a no-op). -/
theorem notification_timer_spec (type msg : String) (ms tid : Nat)
    (st : ClientState) :
    (showTemporaryMessage type msg ms tid st).timer = some (tid, ms) ∧
    (timerFires tid (showTemporaryMessage type msg ms tid st)).error = "" ∧
    (timerFires tid (showTemporaryMessage type msg ms tid st)).success = "" ∧
    (timerFires tid (showTemporaryMessage type msg ms tid st)).timer = none ∧
    (∀ old delay, st.timer = some (old, delay) → old ≠ tid →
      timerFires old (showTemporaryMessage type msg ms tid st) =
        showTemporaryMessage type msg ms tid st) ∧
    (∀ id outcome, (handleDelete id outcome tid st).timer = some (tid, 3000)) ∧
    (∀ file outcome,
      (handleFileChange file outcome tid st).networkCall = true →
      (handleFileChange file outcome tid st).state.timer = some (tid, 3000)) := by
  refine ⟨rfl, ?_, ?_, ?_, ?_, ?_, ?_⟩
  · simp [showTemporaryMessage, timerFires]
  · simp [showTemporaryMessage, timerFires]
  · simp [showTemporaryMessage, timerFires]
  · intro old delay _ hne
    have hcond : ¬ (tid = old) := fun hc => hne hc.symm
    simp [showTemporaryMessage, timerFires, hcond]
  · intro id outcome
    cases outcome <;> rfl
  · intro file outcome hcall
    rcases hv : validateFile file st with ⟨b, st1⟩
    cases b
    · rw [handleFileChange_invalid hv] at hcall
      simp at hcall
    · obtain ⟨rfl, f, rfl, h1, h2⟩ := validateFile_true hv
      rw [handleFileChange_valid h1 h2]
      cases outcome <;> rfl

/-- Witness for C9 at a concrete state with a pending older timer. -/
theorem notification_timer_spec_witness :
    (showTemporaryMessage "success" "Uploaded a.png" 3000 1
        { initClient with timer := some (0, 3000) }).timer = some (1, 3000) ∧
    timerFires 0 (showTemporaryMessage "success" "Uploaded a.png" 3000 1
        { initClient with timer := some (0, 3000) }) =
      showTemporaryMessage "success" "Uploaded a.png" 3000 1
        { initClient with timer := some (0, 3000) } ∧
    (handleFileChange (some goodPngClient) (.ok demoUploaded) 1
        { initClient with timer := some (0, 3000) }).state.timer
      = some (1, 3000) := by
  have h := notification_timer_spec "success" "Uploaded a.png" 3000 1
    { initClient with timer := some (0, 3000) }
  exact ⟨h.1, h.2.2.2.2.1 0 3000 rfl (by decide),
    h.2.2.2.2.2.2 (some goodPngClient) (.ok demoUploaded) (by decide)⟩

/-- Counterexample to Claim C10: after a successful upload the success
message is showing; selecting an invalid file then sets the validation
error without clearing it, so both messages are non-empty at once. -/
theorem messages_both_set_counterexample :
    ((handleFileChange (some badTxtClient) (.ok demoUploaded) 1
        (handleFileChange (some goodPngClient) (.ok demoUploaded) 0
          initClient).state).state.error ≠ "") ∧
    ((handleFileChange (some badTxtClient) (.ok demoUploaded) 1
        (handleFileChange (some goodPngClient) (.ok demoUploaded) 0
          initClient).state).state.success ≠ "") := by
  constructor <;> decide

/-- Claim C10 as amended: the notification helper, the delete
controller, and the upload controller's post-validation paths all clear
both messages before setting one, so they leave at most one message
non-empty; the client-side validation rejection path, however, sets the
error without clearing an existing success message (it leaves `success`
untouched), so both can be non-empty simultaneously. -/
theorem messages_mutually_exclusive_amended :
    (∀ type msg ms tid st,
      (showTemporaryMessage type msg ms tid st).error = "" ∨
      (showTemporaryMessage type msg ms tid st).success = "") ∧
    (∀ id outcome tid st,
      (handleDelete id outcome tid st).error = "" ∨
      (handleDelete id outcome tid st).success = "") ∧
    (∀ file outcome tid st,
      (handleFileChange file outcome tid st).networkCall = true →
      ((handleFileChange file outcome tid st).state.error = "" ∨
       (handleFileChange file outcome tid st).state.success = "")) ∧
    (∀ file outcome tid st,
      (handleFileChange file outcome tid st).networkCall = false →
      (handleFileChange file outcome tid st).state.success = st.success) := by
  have hshow : ∀ (type msg : String) (ms tid : Nat) (st : ClientState),
      (showTemporaryMessage type msg ms tid st).error = "" ∨
      (showTemporaryMessage type msg ms tid st).success = "" := by
    intro type msg ms tid st
    by_cases h : type = "success"
    · left
      show (if type = "success" then "" else msg) = ""
      rw [if_pos h]
    · right
      show (if type = "success" then msg else "") = ""
      rw [if_neg h]
  refine ⟨hshow, ?_, ?_, ?_⟩
  · intro id outcome tid st
    cases outcome <;> exact hshow _ _ _ _ _
  · intro file outcome tid st hcall
    rcases hv : validateFile file st with ⟨b, st1⟩
    cases b
    · rw [handleFileChange_invalid hv] at hcall
      simp at hcall
    · obtain ⟨rfl, f, rfl, h1, h2⟩ := validateFile_true hv
      rw [handleFileChange_valid h1 h2]
      cases outcome with
      | ok record => exact Or.inl rfl
      | failed msg => exact Or.inr rfl
  · intro file outcome tid st hcall
    rcases hv : validateFile file st with ⟨b, st1⟩
    cases b
    · rw [handleFileChange_invalid hv]
      rcases file with _ | f
      · rw [validateFile_none st] at hv
        simp only [Prod.mk.injEq] at hv
        rw [← hv.2]
      · rw [validateFile_some] at hv
        by_cases h1 : f.type ∈ SUPPORTED_TYPES
        · rw [if_pos h1] at hv
          by_cases h2 : f.size > MAX_FILE_SIZE
          · rw [if_pos h2] at hv
            simp only [Prod.mk.injEq] at hv
            rw [← hv.2]
          · rw [if_neg h2] at hv
            simp at hv
        · rw [if_neg h1] at hv
          simp only [Prod.mk.injEq] at hv
          rw [← hv.2]
    · obtain ⟨rfl, f, rfl, h1, h2⟩ := validateFile_true hv
      rw [handleFileChange_valid h1 h2] at hcall
      cases outcome <;> simp at hcall

/-- Witness for the amended C10: the helper and controllers at concrete
inputs, with the implications discharged. -/
theorem messages_mutually_exclusive_amended_witness :
    ((showTemporaryMessage "error" "boom" 3000 0 initClient).error = "" ∨
     (showTemporaryMessage "error" "boom" 3000 0 initClient).success = "") ∧
    ((handleDelete 0 .ok 0 initClient).error = "" ∨
     (handleDelete 0 .ok 0 initClient).success = "") ∧
    ((handleFileChange (some goodPngClient) (.ok demoUploaded) 0
        initClient).state.error = "" ∨
     (handleFileChange (some goodPngClient) (.ok demoUploaded) 0
        initClient).state.success = "") ∧
    (handleFileChange (some badTxtClient) (.ok demoUploaded) 0
        initClient).state.success = initClient.success :=
  ⟨messages_mutually_exclusive_amended.1 "error" "boom" 3000 0 initClient,
   messages_mutually_exclusive_amended.2.1 0 .ok 0 initClient,
   messages_mutually_exclusive_amended.2.2.1 (some goodPngClient)
     (.ok demoUploaded) 0 initClient (by decide),
   messages_mutually_exclusive_amended.2.2.2 (some badTxtClient)
     (.ok demoUploaded) 0 initClient (by decide)⟩

end Gallery
